import Mathlib

/-!
Verification of the JurisAI background-task facade (src/src/jurisai).

The development shallowly embeds the FastAPI layer (api.py), the orchestrator
wrapper (crew.py) and the demo document-analysis tool (tools/custom_tool.py).
Python dictionaries become association lists, timestamps become natural
numbers, the external CrewAI `kickoff` call becomes an `Except String String`
oracle (an exception raised by the collaborator is `Except.error msg`), and
the `uuid.uuid4()` generator becomes an identifier supplied by the
environment; the system-level step function only fires a submission event
when the supplied identifier is not yet a key of the registry, modelling the
freshness of freshly drawn UUIDs.
-/

/-- Status values a task record moves through (api.py stores them as the
strings "pending", "processing", "completed", "failed"). -/
inductive TaskStatus where
  | pending
  | processing
  | completed
  | failed
deriving DecidableEq, Repr

/-- String rendering of a status, as stored in the Python dict. -/
def TaskStatus.toStr : TaskStatus → String
  | .pending => "pending"
  | .processing => "processing"
  | .completed => "completed"
  | .failed => "failed"

/-- Terminal statuses: completed or failed. -/
def TaskStatus.isTerminal : TaskStatus → Bool
  | .completed => true
  | .failed => true
  | _ => false

/-- The `result` payload written by the background executors
(api.py lines 119-124, 168-173, 221-226).  Every payload has an `output`
and a `task_type`; the remaining keys depend on the executor. -/
structure ResultPayload where
  output : String
  task_type : String
  client_type : Option String := none
  query : Option String := none
  analysis_focus : Option String := none
  client_name : Option String := none
  case_type : Option String := none
deriving DecidableEq, Repr

/-- One entry of the `task_store` dictionary (api.py line 31). -/
structure TaskRecord where
  status : TaskStatus
  created_at : Nat
  type : String
  filename : Option String := none
  result : Option ResultPayload := none
  error : Option String := none
  completed_at : Option Nat := none
deriving DecidableEq, Repr

/-- The in-memory registry: `task_store : Dict[str, Dict[str, Any]]`,
embedded as an association list keyed by the task identifier. -/
abbrev TaskStore := List (String × TaskRecord)

/-- Dictionary lookup, `task_store.get(task_id)`. -/
def storeLookup : TaskStore → String → Option TaskRecord
  | [], _ => none
  | (k, v) :: rest, id => if k = id then some v else storeLookup rest id

/-- Dictionary assignment `task_store[task_id] = record`: replaces the
binding when the key exists, otherwise appends it. -/
def storeInsert : TaskStore → String → TaskRecord → TaskStore
  | [], k, v => [(k, v)]
  | (k1, v1) :: rest, k, v =>
      if k1 = k then (k, v) :: rest else (k1, v1) :: storeInsert rest k v

/-- In-place mutation of an existing record, `task_store[task_id][field] = x`
(the executors only ever mutate identifiers they were scheduled with, which
the dispatcher has inserted, so the key is always present). -/
def storeUpdate (s : TaskStore) (k : String) (f : TaskRecord → TaskRecord) : TaskStore :=
  s.map (fun p => if p.1 = k then (p.1, f p.2) else p)

/-- Client-type mapping (api.py lines 82-92, `get_client_type`). -/
def get_client_type (case_type : String) : String :=
  let business_cases := ["corporate", "intellectual_property", "business"]
  let lawyer_cases := ["complex_litigation", "appeals"]
  if case_type ∈ business_cases then "business"
  else if case_type ∈ lawyer_cases then "lawyer"
  else "citizen"

/-- Result dictionary returned by the orchestrator methods
(crew.py lines 203-216 and 264-277). -/
structure OrchResult where
  status : String
  result : Option String := none
  error : Option String := none
  client_type : Option String := none
  query : Option String := none
  analysis_focus : Option String := none
deriving DecidableEq, Repr

/-- `JurisAIOrchestrator.process_legal_query` (crew.py lines 160-216).  The
body builds a crew and runs `kickoff`; everything inside the `try` block is
abstracted by the `kick` oracle, and the `except` branch returns the error
dictionary with `str(e)` as the message. -/
def JurisAIOrchestrator.process_legal_query (query client_type jurisdiction : String)
    (kick : Except String String) : OrchResult :=
  let _ := jurisdiction
  match kick with
  | .ok r =>
      { status := "success", result := some r,
        client_type := some client_type, query := some query }
  | .error e =>
      { status := "error", error := some e, query := some query }

/-- `JurisAIOrchestrator.analyze_document` (crew.py lines 218-277), with the
crew `kickoff` abstracted by the `kick` oracle. -/
def JurisAIOrchestrator.analyze_document (document_content analysis_focus client_type : String)
    (kick : Except String String) : OrchResult :=
  let _ := document_content
  match kick with
  | .ok r =>
      { status := "success", result := some r,
        analysis_focus := some analysis_focus, client_type := some client_type }
  | .error e =>
      { status := "error", error := some e, analysis_focus := some analysis_focus }

/-- The fixed keyword list of `DocumentAnalysisTool._extract_key_terms`
(custom_tool.py lines 167-168). -/
def legal_keywords : List String :=
  ["party", "agreement", "contract", "liability", "damages",
   "termination", "breach", "obligation", "payment", "deadline"]

/-- Substring test on character lists: Python `needle in haystack`. -/
def containsSub (nee : List Char) : List Char → Bool
  | [] => nee.isEmpty
  | c :: rest => nee.isPrefixOf (c :: rest) || containsSub nee rest

/-- Python `needle in haystack` on strings. -/
def strContains (hay nee : String) : Bool := containsSub nee.toList hay.toList

/-- Python `str.lower`, character-wise lowering of the content. -/
def pyLower (s : String) : String := String.mk (s.toList.map Char.toLower)

/-- Python `str.capitalize`: upper-case the first character, lower-case the
rest. -/
def pyCapitalize (s : String) : String :=
  match s.toList with
  | [] => ""
  | c :: rest => String.mk (c.toUpper :: rest.map Char.toLower)

/-- `DocumentAnalysisTool._extract_key_terms` (custom_tool.py lines 161-174):
collect the capitalization of every keyword occurring in the lowercased
content, then keep the first five. -/
def extract_key_terms (content : String) : List String :=
  ((legal_keywords.filter (fun k => strContains (pyLower content) k)).map pyCapitalize).take 5

/-- Continuation-byte test for UTF-8 (second .. fourth byte of a sequence). -/
def isContByte (b : Nat) : Bool := 128 ≤ b && b ≤ 191

/-- Decoding of a byte sequence as UTF-8 with undecodable bytes dropped,
modelling `content.decode("utf-8", errors="ignore")` in `upload_document`
(api.py line 328).  The function is total: on an ill-formed byte the decoder
skips one byte and resumes, which yields the same character stream as
CPython's `ignore` handler because stray continuation bytes and invalid
leads decode to nothing on their own. -/
def utf8DecodeIgnore : List Nat → List Char
  | [] => []
  | b0 :: t0 =>
    if b0 < 128 then Char.ofNat b0 :: utf8DecodeIgnore t0
    else if 194 ≤ b0 && b0 ≤ 223 then
      match t0 with
      | [] => []
      | b1 :: t1 =>
        if isContByte b1 then
          Char.ofNat ((b0 - 192) * 64 + (b1 - 128)) :: utf8DecodeIgnore t1
        else utf8DecodeIgnore (b1 :: t1)
    else if 224 ≤ b0 && b0 ≤ 239 then
      match t0 with
      | [] => []
      | b1 :: t1 =>
        if (if b0 = 224 then 160 ≤ b1 && b1 ≤ 191
            else if b0 = 237 then 128 ≤ b1 && b1 ≤ 159
            else isContByte b1) then
          match t1 with
          | [] => []
          | b2 :: t2 =>
            if isContByte b2 then
              Char.ofNat ((b0 - 224) * 4096 + (b1 - 128) * 64 + (b2 - 128)) ::
                utf8DecodeIgnore t2
            else utf8DecodeIgnore (b2 :: t2)
        else utf8DecodeIgnore (b1 :: t1)
    else if 240 ≤ b0 && b0 ≤ 244 then
      match t0 with
      | [] => []
      | b1 :: t1 =>
        if (if b0 = 240 then 144 ≤ b1 && b1 ≤ 191
            else if b0 = 244 then 128 ≤ b1 && b1 ≤ 143
            else isContByte b1) then
          match t1 with
          | [] => []
          | b2 :: t2 =>
            if isContByte b2 then
              match t2 with
              | [] => []
              | b3 :: t3 =>
                if isContByte b3 then
                  Char.ofNat ((b0 - 240) * 262144 + (b1 - 128) * 4096 +
                      (b2 - 128) * 64 + (b3 - 128)) :: utf8DecodeIgnore t3
                else utf8DecodeIgnore (b3 :: t3)
            else utf8DecodeIgnore (b2 :: t2)
        else utf8DecodeIgnore (b1 :: t1)
    else utf8DecodeIgnore t0
termination_by l => l.length
decreasing_by all_goals (simp [List.length_cons]; try omega)

/-- String form of the lenient UTF-8 decoding of uploaded file bytes. -/
def pyDecodeUtf8Ignore (bs : List Nat) : String := String.mk (utf8DecodeIgnore bs)

/-- Request model `LegalQueryRequest` (api.py lines 47-52); optional fields
hold the value after Pydantic validation, `none` standing for an explicit
null. -/
structure LegalQueryRequest where
  query : String
  case_type : Option String := some "general"
  jurisdiction : Option String := some "federal"
  urgency : Option String := some "normal"
  additional_context : Option String := none
deriving DecidableEq, Repr

/-- Request model `DocumentAnalysisRequest` (api.py lines 54-57). -/
structure DocumentAnalysisRequest where
  document_text : String
  analysis_type : Option String := some "comprehensive"
  specific_sections : Option (List String) := none
deriving DecidableEq, Repr

/-- Request model `ClientIntakeRequest` (api.py lines 59-66). -/
structure ClientIntakeRequest where
  client_name : String
  case_description : String
  case_type : String
  jurisdiction : Option String := some "federal"
  preferred_outcome : Option String := none
  budget_range : Option String := none
  timeline : Option String := none
deriving DecidableEq, Repr

/-- Response model `TaskResponse` (api.py lines 68-71). -/
structure TaskResponse where
  task_id : String
  status : String
  message : String
deriving DecidableEq, Repr

/-- Response model `TaskStatusResponse` (api.py lines 73-79). -/
structure TaskStatusResponse where
  task_id : String
  status : String
  result : Option ResultPayload := none
  error : Option String := none
  created_at : Nat
  completed_at : Option Nat := none
deriving DecidableEq, Repr

/-- A raised `HTTPException(status_code, detail)`. -/
structure HttpError where
  status_code : Nat
  detail : String
deriving DecidableEq, Repr

/-- The `inputs` dictionary a dispatcher hands to its background executor
(api.py lines 271-276, 301-305, 337-341, 365-373); absent keys are `none`. -/
structure Inputs where
  query : Option String := none
  case_type : Option String := none
  jurisdiction : Option String := none
  additional_context : Option String := none
  document_text : Option String := none
  analysis_type : Option String := none
  specific_sections : Option (List String) := none
  client_type : Option String := none
  client_name : Option String := none
  case_description : Option String := none
  preferred_outcome : Option String := none
  budget_range : Option String := none
  timeline : Option String := none
  filename : Option String := none
deriving DecidableEq, Repr

/-- Which executor a scheduled background task runs. -/
inductive ExecKind where
  | legal_query
  | document_analysis
  | client_intake
deriving DecidableEq, Repr

/-- One entry of the FastAPI background-task queue: `background_tasks.add_task
(executor, task_id, inputs)`.  `started` records whether the executor has
already performed its first registry write (status := processing). -/
structure ScheduledTask where
  kind : ExecKind
  task_id : String
  inputs : Inputs
  started : Bool
deriving DecidableEq, Repr

/-- Whole-process state: the registry, whether `startup_event` managed to
build the orchestrator (api.py lines 34-44), and the queue of scheduled
background tasks. -/
structure SysState where
  task_store : TaskStore
  orchestrator : Bool
  queue : List ScheduledTask
deriving DecidableEq, Repr

/-- Python truthiness of an optional string: `None` and the empty string are
falsy (used by `request.jurisdiction or "federal"` and by
`if inputs.get("additional_context"):`). -/
def pyTruthy : Option String → Bool
  | none => false
  | some s => !s.isEmpty

/-- Rendering of an optional value inside an f-string: `None` prints as the
string "None". -/
def pyShowOpt : Option String → String
  | none => "None"
  | some s => s

/-- Detail message of the 503 guard shared by all four dispatchers
(api.py lines 258-259, 290-291, 321-322, 354-355). -/
def notReadyDetail : String := "Service not ready. Orchestrator not initialized."

/-- Endpoint `POST /api/legal-query` (api.py lines 255-285).  `task_id` is
the value drawn from `uuid.uuid4()` and `now` the current timestamp. -/
def legal_query (s : SysState) (task_id : String) (now : Nat)
    (request : LegalQueryRequest) : Except HttpError (TaskResponse × SysState) :=
  if !s.orchestrator then .error ⟨503, notReadyDetail⟩
  else
    let record : TaskRecord :=
      { status := .pending, created_at := now, type := "legal_query" }
    let inputs : Inputs :=
      { query := some request.query,
        case_type := request.case_type,
        jurisdiction := some (if pyTruthy request.jurisdiction
                              then pyShowOpt request.jurisdiction else "federal"),
        additional_context := request.additional_context }
    let s1 : SysState :=
      { s with task_store := storeInsert s.task_store task_id record,
               queue := s.queue ++ [⟨.legal_query, task_id, inputs, false⟩] }
    .ok (⟨task_id, "pending", "Legal query submitted for processing"⟩, s1)

/-- Endpoint `POST /api/analyze-document` (api.py lines 287-313). -/
def analyze_document (s : SysState) (task_id : String) (now : Nat)
    (request : DocumentAnalysisRequest) : Except HttpError (TaskResponse × SysState) :=
  if !s.orchestrator then .error ⟨503, notReadyDetail⟩
  else
    let record : TaskRecord :=
      { status := .pending, created_at := now, type := "document_analysis" }
    let inputs : Inputs :=
      { document_text := some request.document_text,
        analysis_type := request.analysis_type,
        specific_sections := request.specific_sections }
    let s1 : SysState :=
      { s with task_store := storeInsert s.task_store task_id record,
               queue := s.queue ++ [⟨.document_analysis, task_id, inputs, false⟩] }
    .ok (⟨task_id, "pending", "Document submitted for analysis"⟩, s1)

/-- Endpoint `POST /api/upload-document` (api.py lines 315-349).  The raw
file bytes are decoded leniently before the record is created. -/
def upload_document (s : SysState) (task_id : String) (now : Nat)
    (filename : String) (fileBytes : List Nat) :
    Except HttpError (TaskResponse × SysState) :=
  if !s.orchestrator then .error ⟨503, notReadyDetail⟩
  else
    let document_text := pyDecodeUtf8Ignore fileBytes
    let record : TaskRecord :=
      { status := .pending, created_at := now, type := "document_upload",
        filename := some filename }
    let inputs : Inputs :=
      { document_text := some document_text,
        analysis_type := some "comprehensive",
        filename := some filename }
    let s1 : SysState :=
      { s with task_store := storeInsert s.task_store task_id record,
               queue := s.queue ++ [⟨.document_analysis, task_id, inputs, false⟩] }
    .ok (⟨task_id, "pending",
          "Document \x27" ++ filename ++ "\x27 uploaded for analysis"⟩, s1)

/-- Endpoint `POST /api/client-intake` (api.py lines 351-381). -/
def client_intake (s : SysState) (task_id : String) (now : Nat)
    (request : ClientIntakeRequest) : Except HttpError (TaskResponse × SysState) :=
  if !s.orchestrator then .error ⟨503, notReadyDetail⟩
  else
    let record : TaskRecord :=
      { status := .pending, created_at := now, type := "client_intake" }
    let inputs : Inputs :=
      { client_name := some request.client_name,
        case_description := some request.case_description,
        case_type := some request.case_type,
        jurisdiction := request.jurisdiction,
        preferred_outcome := request.preferred_outcome,
        budget_range := request.budget_range,
        timeline := request.timeline }
    let s1 : SysState :=
      { s with task_store := storeInsert s.task_store task_id record,
               queue := s.queue ++ [⟨.client_intake, task_id, inputs, false⟩] }
    .ok (⟨task_id, "pending", "Client intake submitted for processing"⟩, s1)

/-- Endpoint `GET /api/task-status/{task_id}` (api.py lines 383-397). -/
def get_task_status (store : TaskStore) (task_id : String) :
    Except HttpError TaskStatusResponse :=
  match storeLookup store task_id with
  | none => .error ⟨404, "Task not found"⟩
  | some task =>
      .ok { task_id := task_id,
            status := task.status.toStr,
            result := task.result,
            error := task.error,
            created_at := task.created_at,
            completed_at := task.completed_at }

/-- The first statement common to every executor:
`task_store[task_id]["status"] = "processing"` (api.py lines 98, 140, 189). -/
def set_processing (store : TaskStore) (task_id : String) : TaskStore :=
  storeUpdate store task_id (fun r => { r with status := .processing })

/-- Remainder of `process_legal_query_task` after the processing mark
(api.py lines 100-134): build the query, call the orchestrator, and write
either the completed result or the failure.  Exceptions of the collaborator
arrive as `kick = .error msg` and surface through the orchestrator's own
error dictionary; the executor's `except` branch writes the same
failed/error/completed_at fields from `str(e)`. -/
def finish_legal_query (store : TaskStore) (task_id : String) (inputs : Inputs)
    (kick : Except String String) (now : Nat) : TaskStore :=
  let query0 := inputs.query.getD ""
  let client_type := get_client_type (inputs.case_type.getD "general")
  let jurisdiction := inputs.jurisdiction.getD "federal"
  let query := if pyTruthy inputs.additional_context then
      query0 ++ "\n\nAdditional Context: " ++ pyShowOpt inputs.additional_context
    else query0
  let result := JurisAIOrchestrator.process_legal_query query client_type jurisdiction kick
  if result.status = "success" then
    storeUpdate store task_id (fun r =>
      { r with status := .completed,
               result := some { output := result.result.getD "",
                                client_type := result.client_type,
                                query := result.query,
                                task_type := "legal_query" },
               completed_at := some now })
  else
    storeUpdate store task_id (fun r =>
      { r with status := .failed,
               error := some (result.error.getD "Unknown error occurred"),
               completed_at := some now })

/-- The analysis-type to focus-area table of `process_document_analysis_task`
(api.py lines 147-153). -/
def analysis_focus_map (analysis_type : String) : String :=
  if analysis_type = "comprehensive" then "general"
  else if analysis_type = "risk_assessment" then "risk"
  else if analysis_type = "contract_review" then "contract"
  else if analysis_type = "compliance" then "compliance"
  else "general"

/-- Remainder of `process_document_analysis_task` after the processing mark
(api.py lines 142-183). -/
def finish_document_analysis (store : TaskStore) (task_id : String) (inputs : Inputs)
    (kick : Except String String) (now : Nat) : TaskStore :=
  let document_text := inputs.document_text.getD ""
  let analysis_type := inputs.analysis_type.getD "general"
  let analysis_focus := analysis_focus_map analysis_type
  let client_type := inputs.client_type.getD "citizen"
  let result := JurisAIOrchestrator.analyze_document document_text analysis_focus client_type kick
  if result.status = "success" then
    storeUpdate store task_id (fun r =>
      { r with status := .completed,
               result := some { output := result.result.getD "",
                                analysis_focus := result.analysis_focus,
                                client_type := result.client_type,
                                task_type := "document_analysis" },
               completed_at := some now })
  else
    storeUpdate store task_id (fun r =>
      { r with status := .failed,
               error := some (result.error.getD "Unknown error occurred"),
               completed_at := some now })

/-- The intake prompt built by `process_client_intake_task`
(api.py lines 192-205). -/
def intakeQuery (inputs : Inputs) : String :=
  "\n        Client Name: " ++ inputs.client_name.getD "" ++
  "\n        Case Type: " ++ inputs.case_type.getD "" ++
  "\n        \n        Case Description:\n        " ++
  inputs.case_description.getD "" ++
  "\n        \n        Jurisdiction: " ++ pyShowOpt inputs.jurisdiction ++
  "\n        Preferred Outcome: " ++ pyShowOpt inputs.preferred_outcome ++
  "\n        Budget Range: " ++ pyShowOpt inputs.budget_range ++
  "\n        Timeline: " ++ pyShowOpt inputs.timeline ++
  "\n        \n        Please provide comprehensive legal advice and " ++
  "next steps for this client.\n        "

/-- Remainder of `process_client_intake_task` after the processing mark
(api.py lines 191-236): it routes the intake through
`orchestrator.process_legal_query`. -/
def finish_client_intake (store : TaskStore) (task_id : String) (inputs : Inputs)
    (kick : Except String String) (now : Nat) : TaskStore :=
  let query := intakeQuery inputs
  let client_type := get_client_type (inputs.case_type.getD "")
  let jurisdiction := inputs.jurisdiction.getD "federal"
  let result := JurisAIOrchestrator.process_legal_query query client_type jurisdiction kick
  if result.status = "success" then
    storeUpdate store task_id (fun r =>
      { r with status := .completed,
               result := some { output := result.result.getD "",
                                client_name := inputs.client_name,
                                case_type := inputs.case_type,
                                task_type := "client_intake" },
               completed_at := some now })
  else
    storeUpdate store task_id (fun r =>
      { r with status := .failed,
               error := some (result.error.getD "Unknown error occurred"),
               completed_at := some now })

/-- Full background executor `process_legal_query_task` (api.py lines
95-134): mark processing, then run the body. -/
def process_legal_query_task (store : TaskStore) (task_id : String) (inputs : Inputs)
    (kick : Except String String) (now : Nat) : TaskStore :=
  finish_legal_query (set_processing store task_id) task_id inputs kick now

/-- Full background executor `process_document_analysis_task` (api.py lines
137-183). -/
def process_document_analysis_task (store : TaskStore) (task_id : String) (inputs : Inputs)
    (kick : Except String String) (now : Nat) : TaskStore :=
  finish_document_analysis (set_processing store task_id) task_id inputs kick now

/-- Full background executor `process_client_intake_task` (api.py lines
186-236). -/
def process_client_intake_task (store : TaskStore) (task_id : String) (inputs : Inputs)
    (kick : Except String String) (now : Nat) : TaskStore :=
  finish_client_intake (set_processing store task_id) task_id inputs kick now

/-- Dispatch of a finished background task to its executor body. -/
def runFinish (store : TaskStore) (t : ScheduledTask)
    (kick : Except String String) (now : Nat) : TaskStore :=
  match t.kind with
  | .legal_query => finish_legal_query store t.task_id t.inputs kick now
  | .document_analysis => finish_document_analysis store t.task_id t.inputs kick now
  | .client_intake => finish_client_intake store t.task_id t.inputs kick now

/-- Observable events of the running service.  Submission events carry the
identifier drawn from `uuid.uuid4()` and the wall-clock timestamp;
`finishTask` carries the outcome of the external collaborator call. -/
inductive Event where
  | submitLegal (id : String) (now : Nat) (req : LegalQueryRequest)
  | submitAnalyze (id : String) (now : Nat) (req : DocumentAnalysisRequest)
  | submitUpload (id : String) (now : Nat) (filename : String) (fileBytes : List Nat)
  | submitIntake (id : String) (now : Nat) (req : ClientIntakeRequest)
  | startTask (id : String)
  | finishTask (id : String) (kick : Except String String) (now : Nat)

/-- Small-step semantics of the service.  A submission only fires when the
drawn identifier is fresh (uuid freshness); `startTask` performs the
executor's first registry write and `finishTask` the rest, so the
intermediate `processing` state is observable between them.  An event whose
guard is not met leaves the state unchanged. -/
def step (s : SysState) : Event → SysState
  | .submitLegal id now req =>
    if storeLookup s.task_store id = none then
      match legal_query s id now req with
      | .ok (_, s1) => s1
      | .error _ => s
    else s
  | .submitAnalyze id now req =>
    if storeLookup s.task_store id = none then
      match analyze_document s id now req with
      | .ok (_, s1) => s1
      | .error _ => s
    else s
  | .submitUpload id now filename fileBytes =>
    if storeLookup s.task_store id = none then
      match upload_document s id now filename fileBytes with
      | .ok (_, s1) => s1
      | .error _ => s
    else s
  | .submitIntake id now req =>
    if storeLookup s.task_store id = none then
      match client_intake s id now req with
      | .ok (_, s1) => s1
      | .error _ => s
    else s
  | .startTask id =>
    match s.queue.find? (fun t => t.task_id = id && !t.started) with
    | some _ =>
      { s with task_store := set_processing s.task_store id,
               queue := s.queue.map
                 (fun t => if t.task_id = id then { t with started := true } else t) }
    | none => s
  | .finishTask id kick now =>
    match s.queue.find? (fun t => t.task_id = id && t.started) with
    | some t =>
      { s with task_store := runFinish s.task_store t kick now,
               queue := s.queue.filter (fun t1 => t1.task_id ≠ id) }
    | none => s

/-- Service state right after startup: empty registry, empty queue, and the
orchestrator either built or not (api.py lines 36-44 swallow the failure). -/
def sysInit (orch : Bool) : SysState := ⟨[], orch, []⟩

/-- States the running service can actually be in. -/
inductive Reachable : SysState → Prop
  | init (orch : Bool) : Reachable (sysInit orch)
  | step {s : SysState} (e : Event) : Reachable s → Reachable (step s e)

/-- Well-formedness of a stored record: non-terminal records carry no
outcome fields, a completed record carries a result and no error, a failed
record carries an error and no result; `completed_at` is set exactly on
terminal records. -/
def recOk (r : TaskRecord) : Prop :=
  ((r.status = .pending ∨ r.status = .processing) →
      r.completed_at = none ∧ r.result = none ∧ r.error = none) ∧
  (r.status = .completed → r.completed_at ≠ none ∧ r.result ≠ none ∧ r.error = none) ∧
  (r.status = .failed → r.completed_at ≠ none ∧ r.error ≠ none ∧ r.result = none)

/-- System invariant: every stored record is well formed, and every queued
background task points at a stored record whose status reflects whether the
executor has started (processing) or not (pending). -/
def SysInv (s : SysState) : Prop :=
  (∀ id r, storeLookup s.task_store id = some r → recOk r) ∧
  (∀ t ∈ s.queue, ∃ r, storeLookup s.task_store t.task_id = some r ∧
      r.status = (if t.started then TaskStatus.processing else TaskStatus.pending))

/-- Allowed one-step evolutions of a record status: unchanged,
pending to processing, or processing to a terminal status. -/
def statusStepOk (a b : TaskStatus) : Prop :=
  a = b ∨ (a = .pending ∧ b = .processing) ∨
    (a = .processing ∧ (b = .completed ∨ b = .failed))

/-- Concrete legal-query request used to exhibit reachable states. -/
def sampleLegalReq : LegalQueryRequest :=
  { query := "What are tenant rights?", case_type := some "general",
    jurisdiction := some "federal", urgency := some "normal",
    additional_context := none }

/-- Concrete reachable state: one legal query submitted at time 0. -/
def sampleState1 : SysState := step (sysInit true) (.submitLegal "t1" 0 sampleLegalReq)

/-- Concrete pending record used to exercise the status query. -/
def sampleRec : TaskRecord :=
  { status := .pending, created_at := 0, type := "legal_query" }

/-- The empty inputs dictionary. -/
def emptyInputs : Inputs := {}

/-- The record stored for the sample submission before execution starts. -/
def samplePendingRec : TaskRecord :=
  { status := .pending, created_at := 0, type := "legal_query" }

/-- Concrete reachable state: the sample submission started and finished
successfully at time 5. -/
def sampleState3 : SysState :=
  step (step sampleState1 (.startTask "t1")) (.finishTask "t1" (.ok "All good") 5)

/-- The completed record stored for the sample submission. -/
def sampleDoneRec : TaskRecord :=
  { status := .completed, created_at := 0, type := "legal_query",
    result := some { output := "All good", task_type := "legal_query",
                     client_type := some "citizen",
                     query := some "What are tenant rights?" },
    completed_at := some 5 }

/-- A document mentioning all ten keywords of the extraction tool. -/
def allKeywordsDoc : String :=
  "party agreement contract liability damages termination breach " ++
  "obligation payment deadline"

theorem storeUpdate_cons_self (pv : TaskRecord) (rest : TaskStore) (k : String)
    (f : TaskRecord → TaskRecord) :
    storeUpdate ((k, pv) :: rest) k f = (k, f pv) :: storeUpdate rest k f := by
  simp [storeUpdate]

theorem storeUpdate_cons_other (pk : String) (pv : TaskRecord) (rest : TaskStore)
    (k : String) (f : TaskRecord → TaskRecord) (h : pk ≠ k) :
    storeUpdate ((pk, pv) :: rest) k f = (pk, pv) :: storeUpdate rest k f := by
  simp [storeUpdate, h]

theorem storeLookup_insert_self (s : TaskStore) (k : String) (v : TaskRecord) :
    storeLookup (storeInsert s k v) k = some v := by
  induction s with
  | nil => simp [storeInsert, storeLookup]
  | cons p rest ih =>
    obtain ⟨pk, pv⟩ := p
    by_cases h : pk = k
    · subst h
      simp [storeInsert, storeLookup]
    · simp [storeInsert, storeLookup, h, ih]

theorem storeLookup_insert_other (s : TaskStore) (k k1 : String) (v : TaskRecord)
    (h : k1 ≠ k) : storeLookup (storeInsert s k v) k1 = storeLookup s k1 := by
  induction s with
  | nil => simp [storeInsert, storeLookup, Ne.symm h]
  | cons p rest ih =>
    obtain ⟨pk, pv⟩ := p
    by_cases hp : pk = k
    · subst hp
      simp [storeInsert, storeLookup, Ne.symm h]
    · simp [storeInsert, storeLookup, hp, ih]

theorem storeLookup_update_self (s : TaskStore) (k : String) (f : TaskRecord → TaskRecord) :
    storeLookup (storeUpdate s k f) k = (storeLookup s k).map f := by
  induction s with
  | nil => simp [storeUpdate, storeLookup]
  | cons p rest ih =>
    obtain ⟨pk, pv⟩ := p
    by_cases h : pk = k
    · subst h
      rw [storeUpdate_cons_self]
      simp [storeLookup]
    · rw [storeUpdate_cons_other _ _ _ _ _ h]
      simp [storeLookup, h, ih]

theorem storeLookup_update_other (s : TaskStore) (k k1 : String)
    (f : TaskRecord → TaskRecord) (h : k1 ≠ k) :
    storeLookup (storeUpdate s k f) k1 = storeLookup s k1 := by
  induction s with
  | nil => simp [storeUpdate, storeLookup]
  | cons p rest ih =>
    obtain ⟨pk, pv⟩ := p
    by_cases hp : pk = k
    · subst hp
      rw [storeUpdate_cons_self]
      simp [storeLookup, Ne.symm h, ih]
    · rw [storeUpdate_cons_other _ _ _ _ _ hp]
      simp [storeLookup, hp, ih]

theorem Inv_submit (s : SysState) (id : String) (rec : TaskRecord) (kind : ExecKind)
    (inputs : Inputs)
    (hrec : rec.status = .pending ∧ rec.result = none ∧ rec.error = none ∧
            rec.completed_at = none)
    (hfresh : storeLookup s.task_store id = none) (hInv : SysInv s) :
    SysInv { s with task_store := storeInsert s.task_store id rec,
                    queue := s.queue ++ [⟨kind, id, inputs, false⟩] } := by
  obtain ⟨hrecOk, hqueue⟩ := hInv
  constructor
  · intro id1 r1 h1
    by_cases hid : id1 = id
    · subst hid
      rw [storeLookup_insert_self] at h1
      cases h1
      refine ⟨fun _ => ⟨hrec.2.2.2, hrec.2.1, hrec.2.2.1⟩, fun hc => ?_, fun hc => ?_⟩
      · rw [hrec.1] at hc; cases hc
      · rw [hrec.1] at hc; cases hc
    · rw [storeLookup_insert_other _ _ _ _ hid] at h1
      exact hrecOk id1 r1 h1
  · intro t ht
    rw [List.mem_append] at ht
    cases ht with
    | inl hmem =>
      obtain ⟨r, hr, hst⟩ := hqueue t hmem
      have hne : t.task_id ≠ id := by
        intro he
        rw [he, hfresh] at hr
        exact Option.noConfusion hr
      exact ⟨r, by rw [storeLookup_insert_other _ _ _ _ hne]; exact hr, hst⟩
    | inr hmem =>
      simp only [List.mem_singleton] at hmem
      subst hmem
      exact ⟨rec, storeLookup_insert_self _ _ _, by simp [hrec.1]⟩

theorem runFinish_self (store : TaskStore) (t : ScheduledTask)
    (kick : Except String String) (now : Nat) (r : TaskRecord)
    (h : storeLookup store t.task_id = some r) :
    ∃ r1, storeLookup (runFinish store t kick now) t.task_id = some r1 ∧
      ((∃ p : ResultPayload, r1 = { r with status := .completed, result := some p,
                                           completed_at := some now }) ∨
       (∃ m : String, r1 = { r with status := .failed, error := some m,
                                    completed_at := some now })) := by
  obtain ⟨kind, tid, inputs, started⟩ := t
  simp only at h ⊢
  cases kind <;> cases kick <;>
    simp only [runFinish, finish_legal_query, finish_document_analysis,
      finish_client_intake, JurisAIOrchestrator.process_legal_query,
      JurisAIOrchestrator.analyze_document] <;>
    simp only [String.reduceEq, reduceIte] <;>
    rw [storeLookup_update_self, h] <;>
    first
      | exact ⟨_, rfl, Or.inl ⟨_, rfl⟩⟩
      | exact ⟨_, rfl, Or.inr ⟨_, rfl⟩⟩

theorem runFinish_other (store : TaskStore) (t : ScheduledTask)
    (kick : Except String String) (now : Nat) (id1 : String)
    (h : id1 ≠ t.task_id) :
    storeLookup (runFinish store t kick now) id1 = storeLookup store id1 := by
  obtain ⟨kind, tid, inputs, started⟩ := t
  simp only at h ⊢
  cases kind <;> cases kick <;>
    simp only [runFinish, finish_legal_query, finish_document_analysis,
      finish_client_intake, JurisAIOrchestrator.process_legal_query,
      JurisAIOrchestrator.analyze_document] <;>
    simp only [String.reduceEq, reduceIte] <;>
    exact storeLookup_update_other _ _ _ _ h

theorem sysInv_step (s : SysState) (e : Event) (hInv : SysInv s) :
    SysInv (step s e) := by
  obtain ⟨hrecOk, hqueue⟩ := hInv
  cases e with
  | submitLegal id now req =>
    by_cases hfresh : storeLookup s.task_store id = none
    · by_cases horch : s.orchestrator
      · simp only [step, hfresh, if_pos, legal_query, horch, Bool.not_true,
          Bool.false_eq_true, if_false, reduceIte]
        exact Inv_submit s id _ .legal_query _ ⟨rfl, rfl, rfl, rfl⟩ hfresh ⟨hrecOk, hqueue⟩
      · simp only [Bool.not_eq_true] at horch
        simp only [step, hfresh, if_pos, legal_query, horch, Bool.not_false, if_true,
          reduceIte]
        exact ⟨hrecOk, hqueue⟩
    · simp only [step, hfresh, if_false, reduceIte]
      exact ⟨hrecOk, hqueue⟩
  | submitAnalyze id now req =>
    by_cases hfresh : storeLookup s.task_store id = none
    · by_cases horch : s.orchestrator
      · simp only [step, hfresh, if_pos, analyze_document, horch, Bool.not_true,
          Bool.false_eq_true, if_false, reduceIte]
        exact Inv_submit s id _ .document_analysis _ ⟨rfl, rfl, rfl, rfl⟩ hfresh
          ⟨hrecOk, hqueue⟩
      · simp only [Bool.not_eq_true] at horch
        simp only [step, hfresh, if_pos, analyze_document, horch, Bool.not_false, if_true,
          reduceIte]
        exact ⟨hrecOk, hqueue⟩
    · simp only [step, hfresh, if_false, reduceIte]
      exact ⟨hrecOk, hqueue⟩
  | submitUpload id now fn bytes =>
    by_cases hfresh : storeLookup s.task_store id = none
    · by_cases horch : s.orchestrator
      · simp only [step, hfresh, if_pos, upload_document, horch, Bool.not_true,
          Bool.false_eq_true, if_false, reduceIte]
        exact Inv_submit s id _ .document_analysis _ ⟨rfl, rfl, rfl, rfl⟩ hfresh
          ⟨hrecOk, hqueue⟩
      · simp only [Bool.not_eq_true] at horch
        simp only [step, hfresh, if_pos, upload_document, horch, Bool.not_false, if_true,
          reduceIte]
        exact ⟨hrecOk, hqueue⟩
    · simp only [step, hfresh, if_false, reduceIte]
      exact ⟨hrecOk, hqueue⟩
  | submitIntake id now req =>
    by_cases hfresh : storeLookup s.task_store id = none
    · by_cases horch : s.orchestrator
      · simp only [step, hfresh, if_pos, client_intake, horch, Bool.not_true,
          Bool.false_eq_true, if_false, reduceIte]
        exact Inv_submit s id _ .client_intake _ ⟨rfl, rfl, rfl, rfl⟩ hfresh
          ⟨hrecOk, hqueue⟩
      · simp only [Bool.not_eq_true] at horch
        simp only [step, hfresh, if_pos, client_intake, horch, Bool.not_false, if_true,
          reduceIte]
        exact ⟨hrecOk, hqueue⟩
    · simp only [step, hfresh, if_false, reduceIte]
      exact ⟨hrecOk, hqueue⟩
  | startTask id =>
    cases hfind : s.queue.find? (fun t => t.task_id = id && !t.started) with
    | none =>
      simp only [step, hfind]
      exact ⟨hrecOk, hqueue⟩
    | some t0 =>
      have hmem := List.mem_of_find?_eq_some hfind
      have hpred := List.find?_some hfind
      simp only [Bool.and_eq_true, decide_eq_true_eq, Bool.not_eq_true'] at hpred
      obtain ⟨htid, hstarted⟩ := hpred
      obtain ⟨r, hr, hst⟩ := hqueue t0 hmem
      rw [hstarted] at hst
      simp only [Bool.false_eq_true, if_false, reduceIte] at hst
      rw [htid] at hr
      simp only [step, hfind]
      constructor
      · intro id1 r1 h1
        simp only [set_processing] at h1
        by_cases hid : id1 = id
        · subst hid
          rw [storeLookup_update_self, hr] at h1
          simp only [Option.map_some, Option.map_some', Option.some.injEq] at h1
          cases h1
          have hOk := (hrecOk _ r hr).1 (Or.inl hst)
          exact ⟨fun _ => ⟨hOk.1, hOk.2.1, hOk.2.2⟩,
                 fun hc => by simp at hc, fun hc => by simp at hc⟩
        · rw [storeLookup_update_other _ _ _ _ hid] at h1
          exact hrecOk id1 r1 h1
      · intro t ht
        rw [List.mem_map] at ht
        obtain ⟨t1, ht1, rfl⟩ := ht
        obtain ⟨r1, hr1, hst1⟩ := hqueue t1 ht1
        by_cases h1 : t1.task_id = id
        · refine ⟨{ r with status := .processing }, ?_, ?_⟩
          · simp only [h1, if_pos, reduceIte, set_processing]
            rw [storeLookup_update_self, hr]
            rfl
          · simp [h1]
        · refine ⟨r1, ?_, ?_⟩
          · simp only [h1, if_false, reduceIte, set_processing]
            rw [storeLookup_update_other _ _ _ _ h1]
            exact hr1
          · simp [h1, hst1]
  | finishTask id kick now =>
    cases hfind : s.queue.find? (fun t => t.task_id = id && t.started) with
    | none =>
      simp only [step, hfind]
      exact ⟨hrecOk, hqueue⟩
    | some t0 =>
      have hmem := List.mem_of_find?_eq_some hfind
      have hpred := List.find?_some hfind
      simp only [Bool.and_eq_true, decide_eq_true_eq] at hpred
      obtain ⟨htid, hstarted⟩ := hpred
      obtain ⟨r, hr, hst⟩ := hqueue t0 hmem
      rw [hstarted] at hst
      simp only [if_true, reduceIte] at hst
      have hOk := (hrecOk t0.task_id r hr).1 (Or.inr hst)
      obtain ⟨r1, hr1, hcase⟩ := runFinish_self s.task_store t0 kick now r hr
      simp only [step, hfind]
      constructor
      · intro id1 r2 h2
        by_cases hid : id1 = id
        · subst hid
          rw [← htid, hr1] at h2
          cases h2
          rcases hcase with ⟨p, rfl⟩ | ⟨m, rfl⟩
          · exact ⟨fun hc => by rcases hc with hc | hc <;> simp at hc,
                   fun _ => ⟨by simp, by simp, hOk.2.2⟩,
                   fun hc => by simp at hc⟩
          · exact ⟨fun hc => by rcases hc with hc | hc <;> simp at hc,
                   fun hc => by simp at hc,
                   fun _ => ⟨by simp, by simp, hOk.2.1⟩⟩
        · have hne : id1 ≠ t0.task_id := by rw [htid]; exact hid
          rw [runFinish_other _ _ _ _ _ hne] at h2
          exact hrecOk id1 r2 h2
      · intro t ht
        rw [List.mem_filter] at ht
        obtain ⟨htq, htne⟩ := ht
        simp only [decide_eq_true_eq] at htne
        obtain ⟨r2, hr2, hst2⟩ := hqueue t htq
        refine ⟨r2, ?_, hst2⟩
        have hne : t.task_id ≠ t0.task_id := by rw [htid]; exact htne
        rw [runFinish_other _ _ _ _ _ hne]
        exact hr2

/-- Every reachable state satisfies the system invariant. -/
theorem sysInv_reachable {s : SysState} (h : Reachable s) : SysInv s := by
  induction h with
  | init orch =>
    exact ⟨fun id r h1 => by simp [sysInit, storeLookup] at h1,
           fun t ht => by simp [sysInit] at ht⟩
  | step e hr ih => exact sysInv_step _ e ih

/-- C4: `get_task_status` fails with 404 exactly when the identifier is not
a key of the registry, and otherwise returns the stored record verbatim
(status, result, error, created_at, completed_at exactly as stored),
including when the record is non-terminal. -/
theorem C4_task_status_verbatim (store : TaskStore) (tid : String) :
    ((∃ err, get_task_status store tid = .error err) ↔ storeLookup store tid = none) ∧
    (storeLookup store tid = none →
        get_task_status store tid = .error ⟨404, "Task not found"⟩) ∧
    (∀ r, storeLookup store tid = some r →
        get_task_status store tid =
          .ok ⟨tid, r.status.toStr, r.result, r.error, r.created_at, r.completed_at⟩) := by
  cases hlook : storeLookup store tid with
  | none => simp [get_task_status, hlook]
  | some r =>
    refine ⟨?_, ?_, ?_⟩
    · simp [get_task_status, hlook]
    · intro hnone
      cases hnone
    · intro r1 h1
      cases h1
      simp [get_task_status, hlook]

/-- Witness for C4 at a one-entry registry: unknown identifier answers 404,
known identifier answers the stored record. -/
theorem C4_witness :
    get_task_status [("a", sampleRec)] "b" = .error ⟨404, "Task not found"⟩ ∧
    get_task_status [("a", sampleRec)] "a" =
      .ok ⟨"a", sampleRec.status.toStr, sampleRec.result, sampleRec.error,
           sampleRec.created_at, sampleRec.completed_at⟩ :=
  ⟨(C4_task_status_verbatim [("a", sampleRec)] "b").2.1 rfl,
   (C4_task_status_verbatim [("a", sampleRec)] "a").2.2 sampleRec rfl⟩

/-- C5: while the orchestrator is uninitialized every submission endpoint
fails with 503 and, at the system level, leaves the state (hence the
registry) completely unchanged. -/
theorem C5_unavailable_rejects_no_insert (s : SysState) (id : String) (now : Nat)
    (horch : s.orchestrator = false) :
    (∀ req, legal_query s id now req = .error ⟨503, notReadyDetail⟩) ∧
    (∀ req, analyze_document s id now req = .error ⟨503, notReadyDetail⟩) ∧
    (∀ fn bytes, upload_document s id now fn bytes = .error ⟨503, notReadyDetail⟩) ∧
    (∀ req, client_intake s id now req = .error ⟨503, notReadyDetail⟩) ∧
    (∀ req, step s (.submitLegal id now req) = s) ∧
    (∀ req, step s (.submitAnalyze id now req) = s) ∧
    (∀ fn bytes, step s (.submitUpload id now fn bytes) = s) ∧
    (∀ req, step s (.submitIntake id now req) = s) := by
  refine ⟨fun req => ?_, fun req => ?_, fun fn bytes => ?_, fun req => ?_,
          fun req => ?_, fun req => ?_, fun fn bytes => ?_, fun req => ?_⟩ <;>
    by_cases hfresh : storeLookup s.task_store id = none <;>
    simp [step, hfresh, legal_query, analyze_document, upload_document,
      client_intake, horch]

/-- Witness for C5 at the freshly started service whose orchestrator failed
to initialize. -/
theorem C5_witness :
    legal_query (sysInit false) "t1" 0 sampleLegalReq = .error ⟨503, notReadyDetail⟩ ∧
    step (sysInit false) (.submitLegal "t1" 0 sampleLegalReq) = sysInit false :=
  ⟨(C5_unavailable_rejects_no_insert (sysInit false) "t1" 0 rfl).1 sampleLegalReq,
   (C5_unavailable_rejects_no_insert (sysInit false) "t1" 0 rfl).2.2.2.2.1 sampleLegalReq⟩

/-- C7: the orchestrator operations are total functions of the collaborator
outcome and always return a dictionary whose status is "success" with a
result payload, or "error" with an error message string. -/
theorem C7_orchestrator_result_shape (query ct jur doc focus ct2 : String)
    (kick : Except String String) :
    (((JurisAIOrchestrator.process_legal_query query ct jur kick).status = "success" ∧
       ∃ out, (JurisAIOrchestrator.process_legal_query query ct jur kick).result = some out) ∨
     ((JurisAIOrchestrator.process_legal_query query ct jur kick).status = "error" ∧
       ∃ m, (JurisAIOrchestrator.process_legal_query query ct jur kick).error = some m)) ∧
    (((JurisAIOrchestrator.analyze_document doc focus ct2 kick).status = "success" ∧
       ∃ out, (JurisAIOrchestrator.analyze_document doc focus ct2 kick).result = some out) ∨
     ((JurisAIOrchestrator.analyze_document doc focus ct2 kick).status = "error" ∧
       ∃ m, (JurisAIOrchestrator.analyze_document doc focus ct2 kick).error = some m)) := by
  cases kick <;>
    constructor <;>
    simp [JurisAIOrchestrator.process_legal_query, JurisAIOrchestrator.analyze_document]

/-- C8: `get_client_type` is total and classifies exactly as the two fixed
lists dictate, returning "citizen" on every other input including the
default "general" used when the request omits a case type. -/
theorem C8_client_type_classification (ct : String) :
    (get_client_type ct = "business" ↔
      ct ∈ (["corporate", "intellectual_property", "business"] : List String)) ∧
    (get_client_type ct = "lawyer" ↔
      ct ∈ (["complex_litigation", "appeals"] : List String)) ∧
    (ct ∉ (["corporate", "intellectual_property", "business"] : List String) →
      ct ∉ (["complex_litigation", "appeals"] : List String) →
      get_client_type ct = "citizen") ∧
    get_client_type ct ∈ (["business", "lawyer", "citizen"] : List String) ∧
    get_client_type "general" = "citizen" := by
  by_cases hb : ct ∈ (["corporate", "intellectual_property", "business"] : List String)
  · simp only [List.mem_cons, List.mem_singleton, List.not_mem_nil, or_false] at hb
    rcases hb with rfl | rfl | rfl <;> decide
  · by_cases hl : ct ∈ (["complex_litigation", "appeals"] : List String)
    · simp only [List.mem_cons, List.mem_singleton, List.not_mem_nil, or_false] at hl
      rcases hl with rfl | rfl <;> decide
    · simp [get_client_type, hb, hl]

/-- Witness for C8: an unrecognized case type maps to citizen and a listed
one to lawyer. -/
theorem C8_witness :
    get_client_type "tax" = "citizen" ∧ get_client_type "appeals" = "lawyer" :=
  ⟨(C8_client_type_classification "tax").2.2.1 (by decide) (by decide),
   (C8_client_type_classification "appeals").2.1.mpr (by decide)⟩

/-- C1: while the orchestrator is initialized, every dispatcher accepts a
valid submission, answers with the freshly drawn identifier (which, by
uuid freshness, is not yet a registry key) and a "pending" status, and has
inserted a pending record for that identifier before returning. -/
theorem C1_submit_fresh_pending (s : SysState) (id : String) (now : Nat)
    (horch : s.orchestrator = true) (hfresh : storeLookup s.task_store id = none) :
    (∀ req : LegalQueryRequest, ∃ resp s1,
        legal_query s id now req = .ok (resp, s1) ∧ resp.task_id = id ∧
        resp.status = "pending" ∧
        storeLookup s.task_store resp.task_id = none ∧
        ∃ r, storeLookup s1.task_store resp.task_id = some r ∧ r.status = .pending) ∧
    (∀ req : DocumentAnalysisRequest, ∃ resp s1,
        analyze_document s id now req = .ok (resp, s1) ∧ resp.task_id = id ∧
        resp.status = "pending" ∧
        storeLookup s.task_store resp.task_id = none ∧
        ∃ r, storeLookup s1.task_store resp.task_id = some r ∧ r.status = .pending) ∧
    (∀ fn bytes, ∃ resp s1,
        upload_document s id now fn bytes = .ok (resp, s1) ∧ resp.task_id = id ∧
        resp.status = "pending" ∧
        storeLookup s.task_store resp.task_id = none ∧
        ∃ r, storeLookup s1.task_store resp.task_id = some r ∧ r.status = .pending) ∧
    (∀ req : ClientIntakeRequest, ∃ resp s1,
        client_intake s id now req = .ok (resp, s1) ∧ resp.task_id = id ∧
        resp.status = "pending" ∧
        storeLookup s.task_store resp.task_id = none ∧
        ∃ r, storeLookup s1.task_store resp.task_id = some r ∧ r.status = .pending) := by
  refine ⟨fun req => ?_, fun req => ?_, fun fn bytes => ?_, fun req => ?_⟩
  · simp only [legal_query, horch, Bool.not_true, Bool.false_eq_true, if_false, reduceIte]
    exact ⟨_, _, rfl, rfl, rfl, hfresh, _, storeLookup_insert_self _ _ _, rfl⟩
  · simp only [analyze_document, horch, Bool.not_true, Bool.false_eq_true, if_false,
      reduceIte]
    exact ⟨_, _, rfl, rfl, rfl, hfresh, _, storeLookup_insert_self _ _ _, rfl⟩
  · simp only [upload_document, horch, Bool.not_true, Bool.false_eq_true, if_false,
      reduceIte]
    exact ⟨_, _, rfl, rfl, rfl, hfresh, _, storeLookup_insert_self _ _ _, rfl⟩
  · simp only [client_intake, horch, Bool.not_true, Bool.false_eq_true, if_false,
      reduceIte]
    exact ⟨_, _, rfl, rfl, rfl, hfresh, _, storeLookup_insert_self _ _ _, rfl⟩

/-- Witness for C1 at the freshly started service: a concrete legal query
yields a pending record under the returned identifier. -/
theorem C1_witness :
    ∃ resp s1, legal_query (sysInit true) "t1" 0 sampleLegalReq = .ok (resp, s1) ∧
      resp.task_id = "t1" ∧ resp.status = "pending" ∧
      storeLookup (sysInit true).task_store resp.task_id = none ∧
      ∃ r, storeLookup s1.task_store resp.task_id = some r ∧ r.status = .pending :=
  (C1_submit_fresh_pending (sysInit true) "t1" 0 rfl rfl).1 sampleLegalReq

/-- C3: a collaborator failure (the oracle returning an exception message)
is converted by every background executor into a failed record carrying
exactly that message, and the executors are total functions, so nothing
propagates back to the dispatcher caller. -/
theorem C3_collaborator_failure_captured (store : TaskStore) (tid : String)
    (inputs : Inputs) (m : String) (now : Nat) (r : TaskRecord)
    (h : storeLookup store tid = some r) :
    (∃ r1, storeLookup (process_legal_query_task store tid inputs (.error m) now) tid =
        some r1 ∧ r1.status = .failed ∧ r1.error = some m) ∧
    (∃ r1, storeLookup (process_document_analysis_task store tid inputs (.error m) now) tid =
        some r1 ∧ r1.status = .failed ∧ r1.error = some m) ∧
    (∃ r1, storeLookup (process_client_intake_task store tid inputs (.error m) now) tid =
        some r1 ∧ r1.status = .failed ∧ r1.error = some m) := by
  refine ⟨?_, ?_, ?_⟩ <;>
  · simp only [process_legal_query_task, process_document_analysis_task,
      process_client_intake_task, finish_legal_query, finish_document_analysis,
      finish_client_intake, JurisAIOrchestrator.process_legal_query,
      JurisAIOrchestrator.analyze_document, String.reduceEq, reduceIte, set_processing]
    rw [storeLookup_update_self, storeLookup_update_self, h]
    exact ⟨_, rfl, rfl, rfl⟩

/-- Witness for C3: a concrete failing collaborator call marks the stored
record failed with the exception message. -/
theorem C3_witness :
    ∃ r1, storeLookup
        (process_legal_query_task [("t1", sampleRec)] "t1" emptyInputs (.error "boom") 7)
        "t1" = some r1 ∧ r1.status = .failed ∧ r1.error = some "boom" :=
  (C3_collaborator_failure_captured [("t1", sampleRec)] "t1" emptyInputs "boom" 7
    sampleRec rfl).1

/-- C9: an upload decodes the raw bytes leniently (total on arbitrary byte
sequences), records the task under type "document_upload" with the uploaded
filename, but schedules the document-analysis executor, so a successful run
stores a result whose task_type is "document_analysis". -/
theorem C9_upload_runs_document_analysis (s : SysState) (id : String) (now : Nat)
    (fn : String) (bytes : List Nat) (horch : s.orchestrator = true) :
    ∃ resp s1 t,
      upload_document s id now fn bytes = .ok (resp, s1) ∧
      (∃ r, storeLookup s1.task_store id = some r ∧ r.type = "document_upload" ∧
          r.filename = some fn ∧ r.status = .pending) ∧
      s1.queue = s.queue ++ [t] ∧ t.kind = .document_analysis ∧ t.task_id = id ∧
      t.inputs.document_text = some (pyDecodeUtf8Ignore bytes) ∧
      t.inputs.analysis_type = some "comprehensive" ∧
      ∀ out now1, ∃ r1 p,
        storeLookup (finish_document_analysis s1.task_store id t.inputs (.ok out) now1) id =
          some r1 ∧ r1.status = .completed ∧ r1.result = some p ∧
        p.task_type = "document_analysis" := by
  simp only [upload_document, horch, Bool.not_true, Bool.false_eq_true, if_false,
    reduceIte]
  refine ⟨_, _, _, rfl, ⟨_, storeLookup_insert_self _ _ _, rfl, rfl, rfl⟩, rfl, rfl,
    rfl, rfl, rfl, ?_⟩
  intro out now1
  simp only [finish_document_analysis, JurisAIOrchestrator.analyze_document,
    String.reduceEq, reduceIte]
  rw [storeLookup_update_self, storeLookup_insert_self]
  exact ⟨_, _, rfl, rfl, rfl, rfl⟩

/-- Witness for C9: uploading a concrete ill-formed byte sequence is
accepted by the running service. -/
theorem C9_witness :
    ∃ resp s1, upload_document (sysInit true) "t1" 0 "contract.txt" [255, 65] =
      .ok (resp, s1) := by
  obtain ⟨resp, s1, t, heq, _⟩ :=
    C9_upload_runs_document_analysis (sysInit true) "t1" 0 "contract.txt" [255, 65] rfl
  exact ⟨resp, s1, heq⟩

theorem sampleState1_reachable : Reachable sampleState1 :=
  Reachable.step (.submitLegal "t1" 0 sampleLegalReq) (Reachable.init true)

theorem sampleState3_reachable : Reachable sampleState3 :=
  Reachable.step (.finishTask "t1" (.ok "All good") 5)
    (Reachable.step (.startTask "t1") sampleState1_reachable)

/-- C2: in every reachable state, one step changes a stored record's status
only along pending to processing to completed or failed, a terminal record
is never mutated again by any event, and a record's completed_at is set
exactly when its status is terminal. -/
theorem C2_status_monotonic (s : SysState) (hs : Reachable s) :
    (∀ e id r, storeLookup s.task_store id = some r →
        ∃ r1, storeLookup (step s e).task_store id = some r1 ∧
          statusStepOk r.status r1.status ∧
          (r.status.isTerminal = true → r1 = r)) ∧
    (∀ id r, storeLookup s.task_store id = some r →
        (r.completed_at ≠ none ↔ r.status.isTerminal = true)) := by
  obtain ⟨hrecOk, hqueue⟩ := sysInv_reachable hs
  constructor
  · intro e id r h
    cases e with
    | submitLegal id0 now req =>
      by_cases hfresh : storeLookup s.task_store id0 = none
      · by_cases horch : s.orchestrator
        · have hne : id ≠ id0 := fun he => by rw [he, hfresh] at h; cases h
          simp only [step, hfresh, if_pos, legal_query, horch, Bool.not_true,
            Bool.false_eq_true, if_false, reduceIte]
          exact ⟨r, by rw [storeLookup_insert_other _ _ _ _ hne]; exact h,
                 Or.inl rfl, fun _ => rfl⟩
        · simp only [Bool.not_eq_true] at horch
          simp only [step, hfresh, if_pos, legal_query, horch, Bool.not_false, if_true,
            reduceIte]
          exact ⟨r, h, Or.inl rfl, fun _ => rfl⟩
      · simp only [step, hfresh, if_false, reduceIte]
        exact ⟨r, h, Or.inl rfl, fun _ => rfl⟩
    | submitAnalyze id0 now req =>
      by_cases hfresh : storeLookup s.task_store id0 = none
      · by_cases horch : s.orchestrator
        · have hne : id ≠ id0 := fun he => by rw [he, hfresh] at h; cases h
          simp only [step, hfresh, if_pos, analyze_document, horch, Bool.not_true,
            Bool.false_eq_true, if_false, reduceIte]
          exact ⟨r, by rw [storeLookup_insert_other _ _ _ _ hne]; exact h,
                 Or.inl rfl, fun _ => rfl⟩
        · simp only [Bool.not_eq_true] at horch
          simp only [step, hfresh, if_pos, analyze_document, horch, Bool.not_false,
            if_true, reduceIte]
          exact ⟨r, h, Or.inl rfl, fun _ => rfl⟩
      · simp only [step, hfresh, if_false, reduceIte]
        exact ⟨r, h, Or.inl rfl, fun _ => rfl⟩
    | submitUpload id0 now fn bytes =>
      by_cases hfresh : storeLookup s.task_store id0 = none
      · by_cases horch : s.orchestrator
        · have hne : id ≠ id0 := fun he => by rw [he, hfresh] at h; cases h
          simp only [step, hfresh, if_pos, upload_document, horch, Bool.not_true,
            Bool.false_eq_true, if_false, reduceIte]
          exact ⟨r, by rw [storeLookup_insert_other _ _ _ _ hne]; exact h,
                 Or.inl rfl, fun _ => rfl⟩
        · simp only [Bool.not_eq_true] at horch
          simp only [step, hfresh, if_pos, upload_document, horch, Bool.not_false,
            if_true, reduceIte]
          exact ⟨r, h, Or.inl rfl, fun _ => rfl⟩
      · simp only [step, hfresh, if_false, reduceIte]
        exact ⟨r, h, Or.inl rfl, fun _ => rfl⟩
    | submitIntake id0 now req =>
      by_cases hfresh : storeLookup s.task_store id0 = none
      · by_cases horch : s.orchestrator
        · have hne : id ≠ id0 := fun he => by rw [he, hfresh] at h; cases h
          simp only [step, hfresh, if_pos, client_intake, horch, Bool.not_true,
            Bool.false_eq_true, if_false, reduceIte]
          exact ⟨r, by rw [storeLookup_insert_other _ _ _ _ hne]; exact h,
                 Or.inl rfl, fun _ => rfl⟩
        · simp only [Bool.not_eq_true] at horch
          simp only [step, hfresh, if_pos, client_intake, horch, Bool.not_false, if_true,
            reduceIte]
          exact ⟨r, h, Or.inl rfl, fun _ => rfl⟩
      · simp only [step, hfresh, if_false, reduceIte]
        exact ⟨r, h, Or.inl rfl, fun _ => rfl⟩
    | startTask id0 =>
      cases hfind : s.queue.find? (fun t => t.task_id = id0 && !t.started) with
      | none =>
        simp only [step, hfind]
        exact ⟨r, h, Or.inl rfl, fun _ => rfl⟩
      | some t0 =>
        have hmem := List.mem_of_find?_eq_some hfind
        have hpred := List.find?_some hfind
        simp only [Bool.and_eq_true, decide_eq_true_eq, Bool.not_eq_true'] at hpred
        obtain ⟨htid, hstarted⟩ := hpred
        obtain ⟨rq, hrq, hstq⟩ := hqueue t0 hmem
        rw [hstarted] at hstq
        simp only [Bool.false_eq_true, if_false, reduceIte] at hstq
        rw [htid] at hrq
        simp only [step, hfind]
        by_cases hid : id = id0
        · subst hid
          have hr_status : r.status = .pending := by
            rw [h] at hrq
            cases hrq
            exact hstq
          refine ⟨{ r with status := .processing }, ?_, ?_, ?_⟩
          · simp only [set_processing]
            rw [storeLookup_update_self, h]
            rfl
          · exact Or.inr (Or.inl ⟨hr_status, rfl⟩)
          · intro hterm
            rw [hr_status] at hterm
            simp [TaskStatus.isTerminal] at hterm
        · simp only [set_processing]
          rw [storeLookup_update_other _ _ _ _ hid]
          exact ⟨r, h, Or.inl rfl, fun _ => rfl⟩
    | finishTask id0 kick now =>
      cases hfind : s.queue.find? (fun t => t.task_id = id0 && t.started) with
      | none =>
        simp only [step, hfind]
        exact ⟨r, h, Or.inl rfl, fun _ => rfl⟩
      | some t0 =>
        have hmem := List.mem_of_find?_eq_some hfind
        have hpred := List.find?_some hfind
        simp only [Bool.and_eq_true, decide_eq_true_eq] at hpred
        obtain ⟨htid, hstarted⟩ := hpred
        obtain ⟨rq, hrq, hstq⟩ := hqueue t0 hmem
        rw [hstarted] at hstq
        simp only [if_true, reduceIte] at hstq
        simp only [step, hfind]
        by_cases hid : id = id0
        · subst hid
          have hr_status : r.status = .processing := by
            rw [htid, h] at hrq
            cases hrq
            exact hstq
          obtain ⟨r1, hr1, hcase⟩ :=
            runFinish_self s.task_store t0 kick now r (by rw [htid]; exact h)
          rw [htid] at hr1
          refine ⟨r1, hr1, ?_, ?_⟩
          · rcases hcase with ⟨p, rfl⟩ | ⟨m, rfl⟩
            · exact Or.inr (Or.inr ⟨hr_status, Or.inl rfl⟩)
            · exact Or.inr (Or.inr ⟨hr_status, Or.inr rfl⟩)
          · intro hterm
            rw [hr_status] at hterm
            simp [TaskStatus.isTerminal] at hterm
        · have hne : id ≠ t0.task_id := by rw [htid]; exact hid
          rw [runFinish_other _ _ _ _ _ hne]
          exact ⟨r, h, Or.inl rfl, fun _ => rfl⟩
  · intro id r h
    have hOk := hrecOk id r h
    cases hstat : r.status with
    | pending =>
      have hf := hOk.1 (Or.inl hstat)
      simp [hf.1, hstat, TaskStatus.isTerminal]
    | processing =>
      have hf := hOk.1 (Or.inr hstat)
      simp [hf.1, hstat, TaskStatus.isTerminal]
    | completed =>
      have hf := hOk.2.1 hstat
      simp [hf.1, hstat, TaskStatus.isTerminal]
    | failed =>
      have hf := hOk.2.2 hstat
      simp [hf.1, hstat, TaskStatus.isTerminal]

/-- Witness for C2: stepping the sample pending task transitions it along
an allowed edge. -/
theorem C2_witness :
    ∃ r1, storeLookup (step sampleState1 (.startTask "t1")).task_store "t1" = some r1 ∧
      statusStepOk samplePendingRec.status r1.status ∧
      (samplePendingRec.status.isTerminal = true → r1 = samplePendingRec) :=
  (C2_status_monotonic sampleState1 sampleState1_reachable).1 (.startTask "t1") "t1"
    samplePendingRec (by rfl)

/-- C6: in every reachable state a terminal record carries either a result
payload (whose output field always exists by construction of
`ResultPayload`) with no error, or an error message with no result, never
both. -/
theorem C6_terminal_result_xor_error (s : SysState) (hs : Reachable s)
    (id : String) (r : TaskRecord) (h : storeLookup s.task_store id = some r)
    (hterm : r.status.isTerminal = true) :
    (r.status = .completed ∧ (∃ p, r.result = some p) ∧ r.error = none) ∨
    (r.status = .failed ∧ (∃ m, r.error = some m) ∧ r.result = none) := by
  have hOk := (sysInv_reachable hs).1 id r h
  cases hstat : r.status with
  | pending =>
    rw [hstat] at hterm
    simp [TaskStatus.isTerminal] at hterm
  | processing =>
    rw [hstat] at hterm
    simp [TaskStatus.isTerminal] at hterm
  | completed =>
    obtain ⟨hca, hres, herr⟩ := hOk.2.1 hstat
    exact Or.inl ⟨rfl, Option.ne_none_iff_exists'.mp hres, herr⟩
  | failed =>
    obtain ⟨hca, herr, hres⟩ := hOk.2.2 hstat
    exact Or.inr ⟨rfl, Option.ne_none_iff_exists'.mp herr, hres⟩

/-- Witness for C6: the completed sample record carries a result and no
error. -/
theorem C6_witness :
    (sampleDoneRec.status = .completed ∧ (∃ p, sampleDoneRec.result = some p) ∧
      sampleDoneRec.error = none) ∨
    (sampleDoneRec.status = .failed ∧ (∃ m, sampleDoneRec.error = some m) ∧
      sampleDoneRec.result = none) :=
  C6_terminal_result_xor_error sampleState3 sampleState3_reachable "t1" sampleDoneRec
    (by rfl) (by rfl)

/-- Counterexample to C10 as stated: on a document containing all ten
keywords, "deadline" occurs in the lowercased content yet its
capitalization is missing from the output, because only the first five
matches survive the truncation. -/
theorem C10_counterexample :
    ¬ (∀ content : String, ∀ k ∈ legal_keywords,
        (pyCapitalize k ∈ extract_key_terms content ↔
          strContains (pyLower content) k = true)) := by
  intro hclaim
  have h := (hclaim allKeywordsDoc "deadline" (by decide)).mpr (by decide)
  revert h
  decide

/-- C10 amended: `_extract_key_terms` returns at most five terms, each the
capitalization of a fixed-list keyword, in the fixed list's order, and the
capitalization of a keyword is included exactly when the keyword is among
the first five (in list order) occurring as substrings of the lowercased
content; in particular a non-occurring keyword is never included. -/
theorem C10_extract_key_terms_amended (content : String) :
    (extract_key_terms content).length ≤ 5 ∧
    (extract_key_terms content).Sublist (legal_keywords.map pyCapitalize) ∧
    (∀ k, k ∈ legal_keywords →
      (pyCapitalize k ∈ extract_key_terms content ↔
        k ∈ (legal_keywords.filter (fun k1 => strContains (pyLower content) k1)).take 5)) ∧
    (∀ k, k ∈ legal_keywords → strContains (pyLower content) k = false →
      pyCapitalize k ∉ extract_key_terms content) := by
  have hinj : ∀ a ∈ legal_keywords, ∀ b ∈ legal_keywords,
      pyCapitalize a = pyCapitalize b → a = b := by decide
  have hswap : extract_key_terms content =
      ((legal_keywords.filter (fun k1 => strContains (pyLower content) k1)).take 5).map
        pyCapitalize := by
    simp [extract_key_terms, List.map_take]
  refine ⟨?_, ?_, ?_, ?_⟩
  · rw [hswap, List.length_map]
    exact List.length_take_le 5 _
  · rw [hswap]
    exact ((List.take_sublist 5 _).map pyCapitalize).trans
      ((List.filter_sublist _).map pyCapitalize)
  · intro k hk
    rw [hswap]
    constructor
    · intro hmem
      rw [List.mem_map] at hmem
      obtain ⟨k1, hk1, heq⟩ := hmem
      have hk1kw : k1 ∈ legal_keywords :=
        (List.filter_sublist _).subset ((List.take_sublist 5 _).subset hk1)
      have hkk := hinj k1 hk1kw k hk heq
      rwa [← hkk]
    · intro hmem
      exact List.mem_map_of_mem pyCapitalize hmem
  · intro k hk hnot hmem
    rw [hswap, List.mem_map] at hmem
    obtain ⟨k1, hk1, heq⟩ := hmem
    have hk1f : k1 ∈ legal_keywords.filter (fun k1 => strContains (pyLower content) k1) :=
      (List.take_sublist 5 _).subset hk1
    have hk1kw : k1 ∈ legal_keywords := (List.filter_sublist _).subset hk1f
    have hkk : k1 = k := hinj k1 hk1kw k hk heq
    rw [hkk] at hk1f
    have hpos := (List.mem_filter.mp hk1f).2
    rw [hnot] at hpos
    cases hpos

/-- Witness for C10: on the all-keywords document the first keyword is
included, and on a keyword-free document a keyword is excluded. -/
theorem C10_witness :
    (pyCapitalize "party" ∈ extract_key_terms allKeywordsDoc ↔
      "party" ∈ (legal_keywords.filter
        (fun k1 => strContains (pyLower allKeywordsDoc) k1)).take 5) ∧
    pyCapitalize "party" ∉ extract_key_terms "no legal text" :=
  ⟨(C10_extract_key_terms_amended allKeywordsDoc).2.2.1 "party" (by decide),
   (C10_extract_key_terms_amended "no legal text").2.2.2 "party" (by decide) (by decide)⟩
